import Mathlib

/-!
# ckanext-unfold: the `unfold-init-jstree` browser module

A shallow embedding of `ckanext/unfold/assets/js/unfold-init-jstree.js`.

The module is event-handler glue over the DOM and the jstree widget.  Every
handler of the source is embedded as a function that returns the list of
effects it performs, in program order; `perform` and `run` give those effects
their meaning on an explicit page state.  Menu actions and event handlers are
JavaScript closures: they are embedded as functions that return the calls the
closure makes when it is invoked.
-/

namespace Unfold

/-! ## Data model -/

/-- The anchor attributes of a tree node (`node.a_attr`); `href` may be absent. -/
structure AAttr where
  href : Option String
  deriving DecidableEq, Repr

/-- The state record of a tree node (`node.state`). -/
structure NodeState where
  opened : Bool
  deriving DecidableEq, Repr

/-- A node of the tree widget as `_getContextMenuItems` reads it: `a_attr` may be
absent, `children` is the list of child ids, `state.opened` is the open flag. -/
structure Node where
  id : String
  a_attr : Option AAttr
  children : List String
  state : NodeState
  deriving DecidableEq, Repr

/-- The commands the module sends to the widget with `this.tree.jstree(name, arg)`. -/
inductive TreeCmd where
  | search (value : String)
  | open_all
  | close_all
  | close_node (node : Node)
  | open_node (node : Node)
  deriving DecidableEq, Repr

/-- The calls a closure of the module makes on the browser or on the widget. -/
inductive Call where
  | windowOpen (url : String) (target : String)
  | clipboardWriteText (text : String)
  | consoleLog (node : Node)
  | jstree (cmd : TreeCmd)
  deriving DecidableEq, Repr

/-- One entry of the context menu.  `action` is the closure of the entry: applied
to the captured node object as it is when the entry is chosen, it gives the calls
the closure makes. -/
structure MenuItem where
  label : String
  action : Node → List Call

/-- The value `_getContextMenuItems` returns: `false`, or the `items` object as
its key/value pairs in insertion order. -/
inductive MenuResult where
  | suppressed
  | menu (items : List (String × MenuItem))

/-- The keys of the returned mapping (none for `false`). -/
def MenuResult.keys : MenuResult → List String
  | .suppressed => []
  | .menu items => items.map Prod.fst

/-- The entry stored under a key of the returned mapping. -/
def MenuResult.get? : MenuResult → String → Option MenuItem
  | .suppressed, _ => none
  | .menu items, k => (items.find? (fun kv => kv.1 == k)).map Prod.snd

/-- The assignment `items[key] = item` on an object kept in insertion order. -/
def setKey (items : List (String × MenuItem)) (key : String) (item : MenuItem) :
    List (String × MenuItem) :=
  if items.any (fun kv => kv.1 == key) then
    items.map (fun kv => if kv.1 == key then (key, item) else kv)
  else
    items ++ [(key, item)]

/-- One row of the archive structure the backend sends. -/
structure Entry where
  id : String
  parent : String
  text : String
  href : Option String
  deriving DecidableEq, Repr

/-- The `result` object of the response: `error` is unset or a message, the
other fields are the tree data. -/
structure Result where
  error : Option String
  tree : List Entry
  deriving DecidableEq, Repr

/-- The response handed to the `success` callback. -/
structure Response where
  result : Result
  deriving DecidableEq, Repr

/-- The widget events the module listens to. -/
inductive TreeEvent where
  | ready
  | loading
  | open_all
  deriving DecidableEq, Repr

/-- The bodies of the registered widget-event handlers: `this.loadState.show()`
or `this.loadState.hide()`. -/
inductive LoadOp where
  | show
  | hide
  deriving DecidableEq, Repr

structure ThemesConfig where
  dots : Bool

structure CoreConfig where
  data : Result
  themes : ThemesConfig

structure SearchConfig where
  show_only_matches : Bool

structure ContextMenuConfig where
  items : Node → MenuResult

/-- The object literal passed to `.jstree(...)` in `_initJsTree`. -/
structure JsTreeConfig where
  core : CoreConfig
  search : SearchConfig
  contextmenu : ContextMenuConfig
  plugins : List String

/-- The effects the handlers of the module perform. -/
inductive Effect where
  | spinnerRemove
  | errorText (text : String)
  | errorToggle
  | loadShow
  | loadHide
  | on (ev : TreeEvent) (op : LoadOp)
  | jstreeCreate (cfg : JsTreeConfig)
  | call (c : Call)
  | preventDefault
  | searchFocus
  | searchSelect

/-- The part of `navigator` that `_onPageSearch` reads. -/
structure Navigator where
  userAgentDataPlatform : Option String
  userAgent : String
  deriving DecidableEq, Repr

/-- The part of a keydown event that `_onPageSearch` reads, and the two other
modifier flags of the event. -/
structure KeyEvent where
  key : String
  ctrlKey : Bool
  metaKey : Bool
  shiftKey : Bool
  altKey : Bool
  deriving DecidableEq, Repr

/-- The page the module works on: the elements of the DOM contract, the handlers
registered on the tree element, the widget instance and the calls made so far. -/
structure Page where
  spinner : Bool
  errorSpan : String
  errorShown : Bool
  loadShown : Bool
  searchInput : Bool
  searchFocused : Bool
  searchSelected : Bool
  handlers : List (TreeEvent × LoadOp)
  widget : Option JsTreeConfig
  calls : List Call

/-! ## Meaning of the effects -/

/-- One effect on the page.  jQuery `toggle()` flips the visibility, `show()` and
`hide()` set it, `remove()` deletes the element, `.on` appends a handler, and
`.jstree(config)` creates an instance only when the element has none. -/
def perform (p : Page) : Effect → Page
  | .spinnerRemove => { p with spinner := false }
  | .errorText text => { p with errorSpan := text }
  | .errorToggle => { p with errorShown := !p.errorShown }
  | .loadShow => { p with loadShown := true }
  | .loadHide => { p with loadShown := false }
  | .on ev op => { p with handlers := p.handlers ++ [(ev, op)] }
  | .jstreeCreate cfg =>
      { p with widget := match p.widget with
                         | none => some cfg
                         | some w => some w }
  | .call c => { p with calls := p.calls ++ [c] }
  | .preventDefault => p
  | .searchFocus => { p with searchFocused := true }
  | .searchSelect => { p with searchSelected := true }

/-- The effects of a handler, performed in order. -/
def run (effs : List Effect) (p : Page) : Page :=
  effs.foldl perform p

/-- The configurations with which the effects create a widget. -/
def created : List Effect → List JsTreeConfig
  | [] => []
  | .jstreeCreate cfg :: rest => cfg :: created rest
  | _ :: rest => created rest

/-- The texts the effects write into the error span. -/
def errorTexts : List Effect → List String
  | [] => []
  | .errorText text :: rest => text :: errorTexts rest
  | _ :: rest => errorTexts rest

/-- The commands the calls send to the widget. -/
def treeCmds : List Call → List TreeCmd
  | [] => []
  | .jstree cmd :: rest => cmd :: treeCmds rest
  | _ :: rest => treeCmds rest

/-! ## The module -/

/-- The local `nodeHref` of `_getContextMenuItems`: `node.a_attr?.href || null`.
An absent `a_attr`, an absent `href` and the empty string all give `null`. -/
def nodeHref (node : Node) : Option String :=
  match node.a_attr with
  | none => none
  | some a =>
    match a.href with
    | none => none
    | some h => if h = "" then none else some h

/-- The source function `_getContextMenuItems`; `tr` is `ckan.i18n._`. -/
def _getContextMenuItems (tr : String → String) (node : Node) : MenuResult :=
  let items : List (String × MenuItem) := []
  let items :=
    match nodeHref node with
    | none => items
    | some href =>
      if href ≠ "#" then
        let items := setKey items "openURL"
          { label := tr "Open URL"
            action := fun _ => [Call.windowOpen href "_blank"] }
        setKey items "copyURL"
          { label := tr "Copy URL"
            action := fun _ => [Call.clipboardWriteText href] }
      else items
  let items :=
    if node.children.length > 0 then
      setKey items "toggle"
        { label := if node.state.opened then tr "Collapse" else tr "Expand"
          action := fun node =>
            [Call.consoleLog node,
             if node.state.opened then Call.jstree (TreeCmd.close_node node)
             else Call.jstree (TreeCmd.open_node node)] }
    else items
  if items.length = 0 then MenuResult.suppressed else MenuResult.menu items

/-- The source function `_displayErrorReason`. -/
def _displayErrorReason (error : String) : List Effect :=
  [Effect.spinnerRemove, Effect.errorText error, Effect.errorToggle]

/-- The source function `_initJsTree`; `tr` is `ckan.i18n._`. -/
def _initJsTree (tr : String → String) (data : Result) : List Effect :=
  [Effect.on TreeEvent.ready LoadOp.hide,
   Effect.on TreeEvent.loading LoadOp.show,
   Effect.on TreeEvent.open_all LoadOp.hide,
   Effect.jstreeCreate
     { core := { data := data, themes := { dots := false } }
       search := { show_only_matches := true }
       contextmenu := { items := _getContextMenuItems tr }
       plugins := ["search", "wholerow", "contextmenu"] }]

/-- The source function `_onSuccessRequest`.  The test `if (data.result.error)` is
a truthiness test: an unset error and the empty string both fail it. -/
def _onSuccessRequest (tr : String → String) (data : Response) : List Effect :=
  match data.result.error with
  | none => _initJsTree tr data.result
  | some error =>
    if error = "" then _initJsTree tr data.result
    else _displayErrorReason error

/-- The test `/Mac/i.test(s)` on the characters of `s`. -/
def testMac : List Char → Bool
  | a :: b :: c :: rest =>
      ((a = 'M' || a = 'm') && (b = 'A' || b = 'a') && (c = 'C' || c = 'c'))
        || testMac (b :: c :: rest)
  | _ => false

/-- The local `isMac` of `_onPageSearch`. -/
def isMac (nav : Navigator) : Bool :=
  match nav.userAgentDataPlatform with
  | some platform => platform = "macOS"
  | none => testMac nav.userAgent.toList

/-- The local `isSearchShortcut` of `_onPageSearch`. -/
def isSearchShortcut (nav : Navigator) (e : KeyEvent) : Bool :=
  (isMac nav && e.metaKey && e.key = "f") || (!isMac nav && e.ctrlKey && e.key = "f")

/-- The source function `_onPageSearch`. -/
def _onPageSearch (nav : Navigator) (e : KeyEvent) (p : Page) : List Effect :=
  if isSearchShortcut nav e then
    Effect.preventDefault ::
      (if p.searchInput then [Effect.searchFocus, Effect.searchSelect] else [])
  else []

/-- The click handler of `#jstree-expand-all`, bound at module start. -/
def onExpandAllClick : List Effect :=
  [Effect.loadShow, Effect.call (Call.jstree TreeCmd.open_all)]

/-- The click handler of `#jstree-collapse-all`, bound at module start. -/
def onCollapseAllClick : List Effect :=
  [Effect.call (Call.jstree TreeCmd.close_all)]

/-- The body of a registered widget-event handler. -/
def LoadOp.effect : LoadOp → Effect
  | .show => Effect.loadShow
  | .hide => Effect.loadHide

/-- The widget fires an event on the tree element: the handlers registered for it
run in the order of registration. -/
def fire (ev : TreeEvent) (p : Page) : List Effect :=
  (p.handlers.filter (fun h => h.1 = ev)).map (fun h => h.2.effect)

/-- The events of the expand/collapse controls and of the widget. -/
inductive UiEvent where
  | expandAllClick
  | collapseAllClick
  | tree (ev : TreeEvent)
  deriving DecidableEq, Repr

/-- The effects with which the module answers an event. -/
def handle (p : Page) : UiEvent → List Effect
  | .expandAllClick => onExpandAllClick
  | .collapseAllClick => onCollapseAllClick
  | .tree ev => fire ev p

/-- One step of the page: an event arrives and its handlers run. -/
def step (p : Page) (e : UiEvent) : Page :=
  run (handle p e) p

/-! ## The properties in the words of the specification -/

/-- The node's anchor has the real link target `h`: `a_attr` and `href` are
present, and `h` is neither empty nor the placeholder `#`. -/
def linkTarget (node : Node) (h : String) : Prop :=
  ∃ a ∈ node.a_attr, a.href = some h ∧ h ≠ "" ∧ h ≠ "#"

instance (node : Node) (h : String) : Decidable (linkTarget node h) :=
  inferInstanceAs (Decidable (∃ a ∈ node.a_attr, a.href = some h ∧ h ≠ "" ∧ h ≠ "#"))

/-- The node has a real link target: the anchor href is present, non-empty and
different from `#`. -/
def realLink (node : Node) : Prop :=
  ∃ a ∈ node.a_attr, ∃ h ∈ a.href, h ≠ "" ∧ h ≠ "#"

instance (node : Node) : Decidable (realLink node) :=
  inferInstanceAs (Decidable (∃ a ∈ node.a_attr, ∃ h ∈ a.href, h ≠ "" ∧ h ≠ "#"))

/-- The node has no real link target: `a_attr` absent, `href` absent, `href`
empty, or `href` equal to `#`. -/
def noRealLink (node : Node) : Prop :=
  node.a_attr = none ∨
    ∃ a ∈ node.a_attr, a.href = none ∨ a.href = some "" ∨ a.href = some "#"

instance (node : Node) : Decidable (noRealLink node) :=
  inferInstanceAs (Decidable (node.a_attr = none ∨
    ∃ a ∈ node.a_attr, a.href = none ∨ a.href = some "" ∨ a.href = some "#"))

/-! ## Concrete pages, nodes, responses and events -/

/-- The handlers `_initJsTree` registers on the tree element. -/
def treeHandlers : List (TreeEvent × LoadOp) :=
  [(TreeEvent.ready, LoadOp.hide), (TreeEvent.loading, LoadOp.show),
   (TreeEvent.open_all, LoadOp.hide)]

/-- A page as the template delivers it: spinner present, error banner hidden,
loading indicator hidden, search field present, no widget yet. -/
def freshPage : Page :=
  { spinner := true, errorSpan := "", errorShown := false, loadShown := false,
    searchInput := true, searchFocused := false, searchSelected := false,
    handlers := [], widget := none, calls := [] }

/-- A leaf node with a link. -/
def fileNode : Node :=
  { id := "j1_2", a_attr := some { href := some "https://example.com/file.txt" },
    children := [], state := { opened := false } }

/-- A folder node with the placeholder link and two children. -/
def folderNode (opened : Bool) : Node :=
  { id := "j1_1", a_attr := some { href := some "#" },
    children := ["j1_2", "j1_3"], state := { opened := opened } }

/-- A page on which the error banner is already shown. -/
def shownErrorPage : Page :=
  { freshPage with errorShown := true }

/-- A page on which the loading indicator is shown when the response arrives. -/
def loadingPage : Page :=
  { freshPage with loadShown := true }

/-- A response that reports an error. -/
def errorResponse : Response :=
  { result := { error := some "disk read failed", tree := [] } }

/-- A response whose error field holds the empty string. -/
def emptyErrorResponse : Response :=
  { result := { error := some "", tree := [] } }

/-- A response with the error unset and one row of tree data. -/
def treeResponse : Response :=
  { result := { error := none,
                tree := [{ id := "1", parent := "#", text := "file.txt",
                           href := some "https://example.com/file.txt" }] } }

/-- The page after `treeResponse` has been handled on the fresh page. -/
def treePage : Page :=
  run (_onSuccessRequest id treeResponse) freshPage

/-- An Apple platform, as `navigator.userAgentData` reports it. -/
def macNavigator : Navigator :=
  { userAgentDataPlatform := some "macOS", userAgent := "" }

/-- A platform that is not Apple, read from the user-agent string. -/
def linuxNavigator : Navigator :=
  { userAgentDataPlatform := none, userAgent := "Mozilla/5.0 (X11; Linux x86_64)" }

/-- The keydown event of Ctrl+F, no other modifier held. -/
def ctrlF : KeyEvent :=
  { key := "f", ctrlKey := true, metaKey := false, shiftKey := false, altKey := false }

/-- The keydown event of Ctrl+Shift+F: with Shift held the key value is `F`. -/
def ctrlShiftF : KeyEvent :=
  { key := "F", ctrlKey := true, metaKey := false, shiftKey := true, altKey := false }

/-! ## The entries of the context menu -/

/-- The entry `_getContextMenuItems` stores under `openURL`. -/
def openItem (tr : String → String) (href : String) : MenuItem :=
  { label := tr "Open URL", action := fun _ => [Call.windowOpen href "_blank"] }

/-- The entry `_getContextMenuItems` stores under `copyURL`. -/
def copyItem (tr : String → String) (href : String) : MenuItem :=
  { label := tr "Copy URL", action := fun _ => [Call.clipboardWriteText href] }

/-- The entry `_getContextMenuItems` stores under `toggle`. -/
def toggleItem (tr : String → String) (node : Node) : MenuItem :=
  { label := if node.state.opened then tr "Collapse" else tr "Expand"
    action := fun node =>
      [Call.consoleLog node,
       if node.state.opened then Call.jstree (TreeCmd.close_node node)
       else Call.jstree (TreeCmd.open_node node)] }

/-! ## Context menu: shared lemmas -/

theorem linkTarget_iff (node : Node) (h : String) :
    linkTarget node h ↔ (nodeHref node = some h ∧ h ≠ "#") := by
  obtain ⟨id, a_attr, children, state⟩ := node
  unfold linkTarget nodeHref
  rcases a_attr with _ | ⟨_ | s⟩
  · simp
  · simp
  · by_cases hs : s = ""
    · subst hs
      simp
      intro h1 h2
      exact absurd h1.symm h2
    · simp [hs]
      rintro rfl _
      exact hs

theorem realLink_iff (node : Node) : realLink node ↔ ∃ h, linkTarget node h := by
  obtain ⟨id, a_attr, children, state⟩ := node
  unfold realLink linkTarget
  rcases a_attr with _ | ⟨_ | s⟩ <;> simp

theorem noRealLink_iff (node : Node) : noRealLink node ↔ ¬ realLink node := by
  obtain ⟨id, a_attr, children, state⟩ := node
  unfold noRealLink realLink
  rcases a_attr with _ | ⟨_ | s⟩
  · simp
  · simp
  · simp
    constructor
    · rintro (h | h) <;> simp [h]
    · intro h
      by_cases hs : s = ""
      · exact Or.inl hs
      · exact Or.inr (h hs)

theorem nodeHref_of_not_realLink (node : Node) (h : ¬ realLink node) :
    nodeHref node = none ∨ nodeHref node = some "#" := by
  cases hn : nodeHref node with
  | none => exact Or.inl rfl
  | some s =>
    right
    by_contra hne
    apply h
    refine (realLink_iff node).2 ⟨s, (linkTarget_iff node s).2 ⟨hn, ?_⟩⟩
    intro hs
    exact hne (by rw [hs])

theorem menu_link_leaf (tr : String → String) (node : Node) (h : String)
    (hl : linkTarget node h) (hc : node.children = []) :
    _getContextMenuItems tr node
      = MenuResult.menu [("openURL", openItem tr h), ("copyURL", copyItem tr h)] := by
  obtain ⟨hn, hne⟩ := (linkTarget_iff node h).1 hl
  simp [_getContextMenuItems, hn, hne, hc, setKey, openItem, copyItem]

theorem menu_link_parent (tr : String → String) (node : Node) (h : String)
    (hl : linkTarget node h) (hc : node.children ≠ []) :
    _getContextMenuItems tr node
      = MenuResult.menu [("openURL", openItem tr h), ("copyURL", copyItem tr h),
          ("toggle", toggleItem tr node)] := by
  obtain ⟨hn, hne⟩ := (linkTarget_iff node h).1 hl
  have hlen : 0 < node.children.length := List.length_pos.2 hc
  simp [_getContextMenuItems, hn, hne, hlen, setKey, openItem, copyItem, toggleItem]

theorem menu_nolink_parent (tr : String → String) (node : Node)
    (hl : ¬ realLink node) (hc : node.children ≠ []) :
    _getContextMenuItems tr node = MenuResult.menu [("toggle", toggleItem tr node)] := by
  have hlen : 0 < node.children.length := List.length_pos.2 hc
  rcases nodeHref_of_not_realLink node hl with hn | hn <;>
    simp [_getContextMenuItems, hn, hlen, setKey, toggleItem]

theorem menu_nolink_leaf (tr : String → String) (node : Node)
    (hl : ¬ realLink node) (hc : node.children = []) :
    _getContextMenuItems tr node = MenuResult.suppressed := by
  rcases nodeHref_of_not_realLink node hl with hn | hn <;>
    simp [_getContextMenuItems, hn, hc]

theorem fileNode_link : linkTarget fileNode "https://example.com/file.txt" := by
  decide

/-! ## Context menu: the claims -/

/-- C1: `_getContextMenuItems` includes the entries `openURL` (labelled with the
message "Open URL") and `copyURL` (labelled "Copy URL") exactly when the anchor
href of the node is present, non-empty and different from `#`; the two go together;
their actions open and copy that href; and for such a node without children the
mapping has exactly the keys `openURL` and `copyURL`, so no `toggle` key. -/
theorem contextMenu_url_entries (tr : String → String) (node : Node) :
    ("openURL" ∈ (_getContextMenuItems tr node).keys ↔ realLink node) ∧
    ("copyURL" ∈ (_getContextMenuItems tr node).keys ↔ realLink node) ∧
    (∀ h, linkTarget node h →
      ((_getContextMenuItems tr node).get? "openURL").map MenuItem.label
          = some (tr "Open URL") ∧
      ((_getContextMenuItems tr node).get? "copyURL").map MenuItem.label
          = some (tr "Copy URL") ∧
      ((_getContextMenuItems tr node).get? "openURL").map (fun i => i.action node)
          = some [Call.windowOpen h "_blank"] ∧
      ((_getContextMenuItems tr node).get? "copyURL").map (fun i => i.action node)
          = some [Call.clipboardWriteText h]) ∧
    (∀ h, linkTarget node h → node.children = [] →
      (_getContextMenuItems tr node).keys = ["openURL", "copyURL"] ∧
      "toggle" ∉ (_getContextMenuItems tr node).keys) := by
  by_cases hl : realLink node
  · obtain ⟨h, hh⟩ := (realLink_iff node).1 hl
    have huniq : ∀ h2, linkTarget node h2 → h2 = h := by
      intro h2 hh2
      have e1 := ((linkTarget_iff node h2).1 hh2).1
      have e2 := ((linkTarget_iff node h).1 hh).1
      rw [e1] at e2
      exact Option.some.inj e2
    by_cases hc : node.children = []
    · rw [menu_link_leaf tr node h hh hc]
      refine ⟨by simp [MenuResult.keys, hl], by simp [MenuResult.keys, hl], ?_, ?_⟩
      · intro h2 hh2
        rw [huniq h2 hh2]
        simp [MenuResult.get?, List.find?, openItem, copyItem]
      · intro _ _ _
        simp [MenuResult.keys]
    · rw [menu_link_parent tr node h hh hc]
      refine ⟨by simp [MenuResult.keys, hl], by simp [MenuResult.keys, hl], ?_, ?_⟩
      · intro h2 hh2
        rw [huniq h2 hh2]
        simp [MenuResult.get?, List.find?, openItem, copyItem]
      · intro _ _ hc2
        exact absurd hc2 hc
  · by_cases hc : node.children = []
    · rw [menu_nolink_leaf tr node hl hc]
      refine ⟨by simp [MenuResult.keys, hl], by simp [MenuResult.keys, hl], ?_, ?_⟩
      · intro h2 hh2
        exact absurd ((realLink_iff node).2 ⟨h2, hh2⟩) hl
      · intro h2 hh2
        exact absurd ((realLink_iff node).2 ⟨h2, hh2⟩) hl
    · rw [menu_nolink_parent tr node hl hc]
      refine ⟨by simp [MenuResult.keys, hl], by simp [MenuResult.keys, hl], ?_, ?_⟩
      · intro h2 hh2
        exact absurd ((realLink_iff node).2 ⟨h2, hh2⟩) hl
      · intro h2 hh2
        exact absurd ((realLink_iff node).2 ⟨h2, hh2⟩) hl

/-- C1 at the leaf node with href `https://example.com/file.txt`: exactly the two
URL entries. -/
theorem contextMenu_url_entries_witness :
    (_getContextMenuItems id fileNode).keys = ["openURL", "copyURL"] ∧
    "toggle" ∉ (_getContextMenuItems id fileNode).keys :=
  (contextMenu_url_entries id fileNode).2.2.2 _ fileNode_link rfl

/-- C2: `_getContextMenuItems` includes the entry `toggle` exactly when the node
has at least one child; its label is the message "Collapse" when
`node.state.opened` is true and "Expand" otherwise; and for a node whose href is
`#` and whose children list is non-empty the mapping has the one key `toggle`. -/
theorem contextMenu_toggle_entry (tr : String → String) (node : Node) :
    ("toggle" ∈ (_getContextMenuItems tr node).keys ↔ node.children ≠ []) ∧
    (node.children ≠ [] →
      ((_getContextMenuItems tr node).get? "toggle").map MenuItem.label
        = some (if node.state.opened then tr "Collapse" else tr "Expand")) ∧
    (∀ a, node.a_attr = some a → a.href = some "#" → node.children ≠ [] →
      (_getContextMenuItems tr node).keys = ["toggle"] ∧
      "openURL" ∉ (_getContextMenuItems tr node).keys ∧
      "copyURL" ∉ (_getContextMenuItems tr node).keys) := by
  have hhash : ∀ a, node.a_attr = some a → a.href = some "#" → ¬ realLink node := by
    intro a ha hh
    apply (noRealLink_iff node).1
    exact Or.inr ⟨a, ha, Or.inr (Or.inr hh)⟩
  by_cases hl : realLink node
  · obtain ⟨h, hh⟩ := (realLink_iff node).1 hl
    by_cases hc : node.children = []
    · rw [menu_link_leaf tr node h hh hc]
      refine ⟨by simp [MenuResult.keys, hc], fun hc2 => absurd hc hc2, ?_⟩
      intro a ha hh2 _
      exact absurd hl (hhash a ha hh2)
    · rw [menu_link_parent tr node h hh hc]
      refine ⟨by simp [MenuResult.keys, hc], ?_, ?_⟩
      · intro _
        simp [MenuResult.get?, List.find?, toggleItem]
      · intro a ha hh2 _
        exact absurd hl (hhash a ha hh2)
  · by_cases hc : node.children = []
    · rw [menu_nolink_leaf tr node hl hc]
      refine ⟨by simp [MenuResult.keys, hc], fun hc2 => absurd hc hc2, ?_⟩
      intro a _ _ hc2
      exact absurd hc hc2
    · rw [menu_nolink_parent tr node hl hc]
      refine ⟨by simp [MenuResult.keys, hc], ?_, ?_⟩
      · intro _
        simp [MenuResult.get?, List.find?, toggleItem]
      · intro _ _ _ _
        simp [MenuResult.keys]

/-- C2 at the open folder node with href `#` and two children: the one key
`toggle`. -/
theorem contextMenu_toggle_entry_witness :
    (_getContextMenuItems id (folderNode true)).keys = ["toggle"] ∧
    "openURL" ∉ (_getContextMenuItems id (folderNode true)).keys ∧
    "copyURL" ∉ (_getContextMenuItems id (folderNode true)).keys :=
  (contextMenu_toggle_entry id (folderNode true)).2.2 _ rfl rfl (by decide)

/-- C3: `_getContextMenuItems` returns `false` if and only if the node has no real
link target (`a_attr` absent, href absent, href empty or href `#`) and no
children; in every other case it returns a mapping with at least one entry, and
it never returns the empty mapping. -/
theorem contextMenu_suppressed_iff (tr : String → String) (node : Node) :
    (_getContextMenuItems tr node = MenuResult.suppressed
      ↔ (noRealLink node ∧ node.children = [])) ∧
    (¬ (noRealLink node ∧ node.children = []) →
      ∃ kv rest, _getContextMenuItems tr node = MenuResult.menu (kv :: rest)) ∧
    _getContextMenuItems tr node ≠ MenuResult.menu [] := by
  rw [noRealLink_iff]
  by_cases hl : realLink node
  · obtain ⟨h, hh⟩ := (realLink_iff node).1 hl
    by_cases hc : node.children = []
    · rw [menu_link_leaf tr node h hh hc]
      exact ⟨by simp [hl], fun _ => ⟨_, _, rfl⟩, by simp⟩
    · rw [menu_link_parent tr node h hh hc]
      exact ⟨by simp [hl], fun _ => ⟨_, _, rfl⟩, by simp⟩
  · by_cases hc : node.children = []
    · rw [menu_nolink_leaf tr node hl hc]
      exact ⟨by simp [hl, hc], fun hn => absurd ⟨hl, hc⟩ hn, by simp⟩
    · rw [menu_nolink_parent tr node hl hc]
      exact ⟨by simp [hc], fun _ => ⟨_, _, rfl⟩, by simp⟩

/-- C3 at the leaf node with a link: a mapping with at least one entry. -/
theorem contextMenu_suppressed_iff_witness :
    ∃ kv rest, _getContextMenuItems id fileNode = MenuResult.menu (kv :: rest) :=
  (contextMenu_suppressed_iff id fileNode).2.1
    (by decide)

/-- C10: for a node with at least one child, the action of the `toggle` entry
logs the node and issues exactly one widget command, on that same node:
`close_node` when the node is open and `open_node` otherwise; so "Collapse"
closes and "Expand" opens, for the node state the menu was built from. -/
theorem toggle_action_agrees (tr : String → String) (node : Node)
    (hc : node.children ≠ []) :
    ∃ item, (_getContextMenuItems tr node).get? "toggle" = some item ∧
      item.action node
        = [Call.consoleLog node,
           Call.jstree (if node.state.opened then TreeCmd.close_node node
                        else TreeCmd.open_node node)] ∧
      (node.state.opened = true →
        item.label = tr "Collapse" ∧
        treeCmds (item.action node) = [TreeCmd.close_node node]) ∧
      (node.state.opened = false →
        item.label = tr "Expand" ∧
        treeCmds (item.action node) = [TreeCmd.open_node node]) := by
  have key : ∃ item, (_getContextMenuItems tr node).get? "toggle" = some item ∧
      item = toggleItem tr node := by
    by_cases hl : realLink node
    · obtain ⟨h, hh⟩ := (realLink_iff node).1 hl
      rw [menu_link_parent tr node h hh hc]
      exact ⟨_, by simp [MenuResult.get?, List.find?], rfl⟩
    · rw [menu_nolink_parent tr node hl hc]
      exact ⟨_, by simp [MenuResult.get?, List.find?], rfl⟩
  obtain ⟨item, hget, rfl⟩ := key
  refine ⟨_, hget, ?_, ?_, ?_⟩
  · cases ho : node.state.opened <;> simp [toggleItem, ho]
  · intro ho
    simp [toggleItem, ho, treeCmds]
  · intro ho
    simp [toggleItem, ho, treeCmds]

/-- C10 at the open folder node: the `toggle` entry is labelled "Collapse" and its
action issues `close_node` on that node. -/
theorem toggle_action_agrees_witness :
    ∃ item, (_getContextMenuItems id (folderNode true)).get? "toggle" = some item ∧
      item.label = "Collapse" ∧
      treeCmds (item.action (folderNode true)) = [TreeCmd.close_node (folderNode true)] := by
  obtain ⟨item, hget, _, hopen, _⟩ :=
    toggle_action_agrees id (folderNode true) (by decide)
  exact ⟨item, hget, hopen rfl⟩

/-! ## Response handling: shared lemmas -/

theorem onSuccessRequest_of_error (tr : String → String) (data : Response) (msg : String)
    (herr : data.result.error = some msg) (hne : msg ≠ "") :
    _onSuccessRequest tr data = _displayErrorReason msg := by
  simp [_onSuccessRequest, herr, hne]

theorem onSuccessRequest_of_unset (tr : String → String) (data : Response)
    (herr : data.result.error = none) :
    _onSuccessRequest tr data = _initJsTree tr data.result := by
  simp [_onSuccessRequest, herr]

theorem run_append (l1 l2 : List Effect) (p : Page) :
    run (l1 ++ l2) p = run l2 (run l1 p) := by
  simp [run, List.foldl_append]

theorem initJsTree_handlers (tr : String → String) (data : Result) (p : Page) :
    (run (_initJsTree tr data) p).handlers = p.handlers ++ treeHandlers := by
  simp [run, _initJsTree, perform, treeHandlers]

theorem fire_append (ev : TreeEvent) (p : Page) (hs1 hs2 : List (TreeEvent × LoadOp))
    (hh : p.handlers = hs1 ++ hs2) :
    fire ev p = (hs1.filter (fun h => h.1 = ev)).map (fun h => h.2.effect)
      ++ (hs2.filter (fun h => h.1 = ev)).map (fun h => h.2.effect) := by
  simp [fire, hh]

/-! ## Response handling: the claims -/

/-- C4, the input on which the claim fails: the error field is present and holds
the string `""`, yet the tree widget is created and nothing is written into the
error span. -/
theorem onSuccessRequest_empty_error_creates_tree :
    emptyErrorResponse.result.error = some "" ∧
    (created (_onSuccessRequest id emptyErrorResponse)).length = 1 ∧
    errorTexts (_onSuccessRequest id emptyErrorResponse) = [] ∧
    (run (_onSuccessRequest id emptyErrorResponse) freshPage).widget.isSome = true ∧
    (run (_onSuccessRequest id emptyErrorResponse) freshPage).errorShown = false := by
  refine ⟨rfl, ?_, ?_, ?_, ?_⟩ <;>
    simp [_onSuccessRequest, emptyErrorResponse, _initJsTree, created, errorTexts, run,
      perform, freshPage]

/-- C4, amended: for every response whose error field holds a non-empty string,
`_onSuccessRequest` does exactly what `_displayErrorReason` does with that message:
the error span holds exactly the message, no handler is registered and no widget
is created; and for no response at all are both the error text written and a
widget created. -/
theorem onSuccessRequest_error_branch (tr : String → String) (data : Response)
    (msg : String) (p : Page)
    (herr : data.result.error = some msg) (hne : msg ≠ "") :
    _onSuccessRequest tr data = _displayErrorReason msg ∧
    errorTexts (_onSuccessRequest tr data) = [msg] ∧
    (run (_onSuccessRequest tr data) p).errorSpan = msg ∧
    created (_onSuccessRequest tr data) = [] ∧
    (run (_onSuccessRequest tr data) p).widget = p.widget ∧
    (run (_onSuccessRequest tr data) p).handlers = p.handlers ∧
    (∀ other : Response,
      errorTexts (_onSuccessRequest tr other) = [] ∨
      created (_onSuccessRequest tr other) = []) := by
  rw [onSuccessRequest_of_error tr data msg herr hne]
  refine ⟨rfl, rfl, rfl, rfl, rfl, rfl, ?_⟩
  intro other
  unfold _onSuccessRequest
  cases other.result.error with
  | none => left; rfl
  | some e =>
    by_cases he : e = ""
    · left; simp [he, _initJsTree, errorTexts]
    · right; simp [he, _displayErrorReason, created]

/-- C4, amended, at the response with error `disk read failed`. -/
theorem onSuccessRequest_error_branch_witness :
    (run (_onSuccessRequest id errorResponse) freshPage).errorSpan = "disk read failed" ∧
    created (_onSuccessRequest id errorResponse) = [] :=
  have h := onSuccessRequest_error_branch id errorResponse "disk read failed" freshPage
    rfl (by decide)
  ⟨h.2.2.1, h.2.2.2.1⟩

/-- C5, the input on which the claim fails: when the error banner is already
shown, `_displayErrorReason` leaves it hidden, although the message was written
into its span. -/
theorem displayErrorReason_hides_shown_banner :
    shownErrorPage.errorShown = true ∧
    (run (_displayErrorReason "disk read failed") shownErrorPage).errorSpan
      = "disk read failed" ∧
    (run (_displayErrorReason "disk read failed") shownErrorPage).errorShown = false :=
  ⟨rfl, rfl, rfl⟩

/-- C5, amended: for every error message, on a page whose error container is
hidden, after `_displayErrorReason` the container is shown, its span holds the
message and the spinner is removed; on every page the call flips the visibility of
the container, so the container is shown afterwards exactly when it was hidden
before. -/
theorem displayErrorReason_shows_hidden_banner (error : String) (p : Page)
    (hhid : p.errorShown = false) :
    (run (_displayErrorReason error) p).errorShown = true ∧
    (run (_displayErrorReason error) p).errorSpan = error ∧
    (run (_displayErrorReason error) p).spinner = false ∧
    (∀ q : Page, (run (_displayErrorReason error) q).errorShown = !q.errorShown) ∧
    (∀ q : Page,
      (run (_displayErrorReason error) q).errorShown = true ↔ q.errorShown = false) := by
  refine ⟨?_, rfl, rfl, fun q => rfl, ?_⟩
  · simp [run, _displayErrorReason, perform, hhid]
  · intro q
    simp [run, _displayErrorReason, perform]

/-- C5, amended, at the message `disk read failed` on the fresh page. -/
theorem displayErrorReason_shows_hidden_banner_witness :
    (run (_displayErrorReason "disk read failed") freshPage).errorShown = true ∧
    (run (_displayErrorReason "disk read failed") freshPage).errorSpan
      = "disk read failed" :=
  have h := displayErrorReason_shows_hidden_banner "disk read failed" freshPage rfl
  ⟨h.1, h.2.1⟩

/-- C6, the input on which the claim fails: the loading indicator is shown when
the error response arrives, and it is still shown after the response has been
handled. -/
theorem error_response_leaves_indicator_shown :
    loadingPage.loadShown = true ∧
    errorResponse.result.error = some "disk read failed" ∧
    (run (_onSuccessRequest id errorResponse) loadingPage).loadShown = true := by
  refine ⟨rfl, rfl, ?_⟩
  simp [_onSuccessRequest, errorResponse, _displayErrorReason, run, perform, loadingPage,
    freshPage]

/-- C6, amended: for every response that signals an error, after
`_onSuccessRequest` has handled it the spinner element is removed, and the
loading indicator `this.loadState` is as it was before: the error path does not
touch it, so it is hidden afterwards when it was hidden before. -/
theorem error_response_removes_spinner (tr : String → String) (data : Response)
    (msg : String) (p : Page)
    (herr : data.result.error = some msg) (hne : msg ≠ "") :
    (run (_onSuccessRequest tr data) p).spinner = false ∧
    (run (_onSuccessRequest tr data) p).loadShown = p.loadShown ∧
    (p.loadShown = false → (run (_onSuccessRequest tr data) p).loadShown = false) := by
  rw [onSuccessRequest_of_error tr data msg herr hne]
  exact ⟨rfl, rfl, fun h => h⟩

/-- C6, amended, at the response with error `disk read failed` on the fresh
page. -/
theorem error_response_removes_spinner_witness :
    (run (_onSuccessRequest id errorResponse) freshPage).spinner = false ∧
    (run (_onSuccessRequest id errorResponse) freshPage).loadShown = false :=
  have h := error_response_removes_spinner id errorResponse "disk read failed" freshPage
    rfl (by decide)
  ⟨h.1, h.2.2 rfl⟩

/-- C7: for every response whose error is unset, `_onSuccessRequest` writes no
error text and creates the widget exactly once, with `core.data` the received
result, `themes.dots` false, `search.show_only_matches` true, the context-menu
provider `_getContextMenuItems` and the plugins search, wholerow, contextmenu;
on a page without a widget that configuration becomes the widget; and on every
later page with the handlers so registered, the `ready` event leaves the loading
indicator hidden. -/
theorem onSuccessRequest_inits_tree (tr : String → String) (data : Response) (p : Page)
    (herr : data.result.error = none) :
    (∃ cfg, created (_onSuccessRequest tr data) = [cfg] ∧
      cfg.core.data = data.result ∧
      cfg.core.themes.dots = false ∧
      cfg.search.show_only_matches = true ∧
      cfg.contextmenu.items = _getContextMenuItems tr ∧
      cfg.plugins = ["search", "wholerow", "contextmenu"] ∧
      (p.widget = none →
        (run (_onSuccessRequest tr data) p).widget.map (fun w => w.core.data)
          = some data.result)) ∧
    errorTexts (_onSuccessRequest tr data) = [] ∧
    (∀ q : Page, q.handlers = (run (_onSuccessRequest tr data) p).handlers →
      (step q (UiEvent.tree TreeEvent.ready)).loadShown = false) := by
  rw [onSuccessRequest_of_unset tr data herr]
  refine ⟨⟨_, rfl, rfl, rfl, rfl, rfl, rfl, ?_⟩, rfl, ?_⟩
  · intro hw
    simp [run, _initJsTree, perform, hw]
  · intro q hq
    rw [initJsTree_handlers] at hq
    have hf := fire_append TreeEvent.ready q p.handlers treeHandlers hq
    simp only [step, handle]
    rw [hf, run_append]
    simp [treeHandlers, LoadOp.effect, run, perform]

/-- C7 at the response with one row of tree data, on the fresh page. -/
theorem onSuccessRequest_inits_tree_witness :
    (created (_onSuccessRequest id treeResponse)).map (fun cfg => cfg.core.data)
      = [treeResponse.result] ∧
    (step { treePage with loadShown := true } (UiEvent.tree TreeEvent.ready)).loadShown
      = false := by
  have h := onSuccessRequest_inits_tree id treeResponse freshPage rfl
  obtain ⟨⟨cfg, hc, hd, _⟩, _, hready⟩ := h
  refine ⟨?_, hready _ rfl⟩
  rw [hc]
  simp [hd]

/-! ## Keyboard shortcut: the claims -/

/-- C8, the inputs on which the claim fails.  Ctrl+F on an Apple platform is not
intercepted: `preventDefault` is not called and the search field is neither
focused nor selected.  Ctrl+F with Shift held, whose key value is `F`, is not
intercepted on a platform that is not Apple either. -/
theorem ctrlF_on_mac_not_intercepted :
    isMac macNavigator = true ∧ ctrlF.ctrlKey = true ∧ ctrlF.key = "f" ∧
    freshPage.searchInput = true ∧
    _onPageSearch macNavigator ctrlF freshPage = [] ∧
    (run (_onPageSearch macNavigator ctrlF freshPage) freshPage).searchFocused = false ∧
    isMac linuxNavigator = false ∧ ctrlShiftF.ctrlKey = true ∧ ctrlShiftF.key = "F" ∧
    _onPageSearch linuxNavigator ctrlShiftF freshPage = [] := by
  refine ⟨by decide, rfl, rfl, rfl, ?_, ?_, by decide, rfl, rfl, ?_⟩ <;>
    simp [_onPageSearch, isSearchShortcut, isMac, macNavigator, ctrlF, ctrlShiftF, run,
      freshPage]

/-- C8, amended: for every keydown event whose key is exactly `f` with Cmd held on
an Apple platform, or with Ctrl held on a platform that is not Apple,
`_onPageSearch` calls `preventDefault` first and, when the search field exists,
focuses it and selects its text, for every state of the other modifier keys of
the event.  Every other keydown event is left alone: no effect at all.  In
particular an event without Cmd on an Apple platform (so Ctrl+F there), an event
without Ctrl on a platform that is not Apple, and an event whose key is not `f`
(such as `F`) are not intercepted. -/
theorem onPageSearch_shortcut (nav : Navigator) (e : KeyEvent) (p : Page) :
    ((e.key = "f" ∧
        ((isMac nav = true ∧ e.metaKey = true) ∨ (isMac nav = false ∧ e.ctrlKey = true))) →
      _onPageSearch nav e p
        = Effect.preventDefault ::
            (if p.searchInput then [Effect.searchFocus, Effect.searchSelect] else []) ∧
      (p.searchInput = true →
        (run (_onPageSearch nav e p) p).searchFocused = true ∧
        (run (_onPageSearch nav e p) p).searchSelected = true)) ∧
    (¬ (e.key = "f" ∧
        ((isMac nav = true ∧ e.metaKey = true) ∨ (isMac nav = false ∧ e.ctrlKey = true))) →
      _onPageSearch nav e p = [] ∧ run (_onPageSearch nav e p) p = p) ∧
    (isMac nav = true → e.metaKey = false → _onPageSearch nav e p = []) ∧
    (isMac nav = false → e.ctrlKey = false → _onPageSearch nav e p = []) ∧
    (e.key ≠ "f" → _onPageSearch nav e p = []) := by
  have hiff : isSearchShortcut nav e = true ↔ (e.key = "f" ∧
      ((isMac nav = true ∧ e.metaKey = true) ∨ (isMac nav = false ∧ e.ctrlKey = true))) := by
    cases hm : isMac nav <;> cases hc : e.ctrlKey <;> cases hk : e.metaKey <;>
      simp [isSearchShortcut, hm, hc, hk]
  have hno : isSearchShortcut nav e = false → _onPageSearch nav e p = [] := by
    intro hs
    simp [_onPageSearch, hs]
  have hnot : ¬ (e.key = "f" ∧
      ((isMac nav = true ∧ e.metaKey = true) ∨ (isMac nav = false ∧ e.ctrlKey = true))) →
      isSearchShortcut nav e = false := by
    intro hn
    cases hs : isSearchShortcut nav e with
    | false => rfl
    | true => exact absurd (hiff.1 hs) hn
  refine ⟨?_, ?_, ?_, ?_, ?_⟩
  · intro hc
    have hs := hiff.2 hc
    refine ⟨by simp [_onPageSearch, hs], ?_⟩
    intro hin
    simp [_onPageSearch, hs, hin, run, perform]
  · intro hn
    have h0 := hno (hnot hn)
    exact ⟨h0, by rw [h0]; rfl⟩
  · intro hm hk
    apply hno
    apply hnot
    rintro ⟨_, ⟨_, h2⟩ | ⟨h1, _⟩⟩
    · rw [hk] at h2; exact Bool.noConfusion h2
    · rw [hm] at h1; exact Bool.noConfusion h1
  · intro hm hc
    apply hno
    apply hnot
    rintro ⟨_, ⟨h1, _⟩ | ⟨_, h2⟩⟩
    · rw [hm] at h1; exact Bool.noConfusion h1
    · rw [hc] at h2; exact Bool.noConfusion h2
  · intro hk
    apply hno
    apply hnot
    rintro ⟨h, _⟩
    exact hk h

/-- C8, amended, at Ctrl+F on a platform that is not Apple. -/
theorem onPageSearch_shortcut_witness :
    _onPageSearch linuxNavigator ctrlF freshPage
      = [Effect.preventDefault, Effect.searchFocus, Effect.searchSelect] ∧
    (run (_onPageSearch linuxNavigator ctrlF freshPage) freshPage).searchFocused = true ∧
    (run (_onPageSearch linuxNavigator ctrlF freshPage) freshPage).searchSelected = true :=
  have h := (onPageSearch_shortcut linuxNavigator ctrlF freshPage).1
    ⟨rfl, Or.inr ⟨by decide, rfl⟩⟩
  ⟨h.1, h.2 rfl⟩

/-! ## Expand all and collapse all: the claims -/

/-- C9, the input on which the claim fails: after the expand-all click on the
page with the tree, the indicator is shown, and the `ready` event of the widget,
which is not the "open all completed" event, hides it. -/
theorem expandAll_then_ready_hides :
    (step treePage UiEvent.expandAllClick).loadShown = true ∧
    (step (step treePage UiEvent.expandAllClick) (UiEvent.tree TreeEvent.ready)).loadShown
      = false ∧
    UiEvent.tree TreeEvent.ready ≠ UiEvent.tree TreeEvent.open_all := by
  refine ⟨?_, ?_, by decide⟩ <;>
    simp [step, handle, onExpandAllClick, fire, run, perform, treePage, _onSuccessRequest,
      treeResponse, _initJsTree, freshPage, LoadOp.effect]

/-- C9, amended: on a page with the handlers `_initJsTree` registers, the expand-all
click shows the indicator and then issues `open_all` to the widget; from that
state the events that hide the indicator are exactly the widget events `ready`
and `open_all`; and the collapse-all click issues `close_all` and never changes
the indicator. -/
theorem expandAll_indicator (p : Page) (hh : p.handlers = treeHandlers) :
    handle p UiEvent.expandAllClick
      = [Effect.loadShow, Effect.call (Call.jstree TreeCmd.open_all)] ∧
    (step p UiEvent.expandAllClick).loadShown = true ∧
    (step p UiEvent.expandAllClick).calls = p.calls ++ [Call.jstree TreeCmd.open_all] ∧
    (∀ e : UiEvent,
      (step (step p UiEvent.expandAllClick) e).loadShown = false
        ↔ (e = UiEvent.tree TreeEvent.ready ∨ e = UiEvent.tree TreeEvent.open_all)) ∧
    (∀ q : Page,
      handle q UiEvent.collapseAllClick = [Effect.call (Call.jstree TreeCmd.close_all)] ∧
      (step q UiEvent.collapseAllClick).loadShown = q.loadShown) := by
  refine ⟨rfl, rfl, rfl, ?_, fun q => ⟨rfl, rfl⟩⟩
  have hh2 : (step p UiEvent.expandAllClick).handlers = treeHandlers := hh
  have hl : (step p UiEvent.expandAllClick).loadShown = true := rfl
  generalize step p UiEvent.expandAllClick = q at hh2 hl
  intro e
  rcases e with _ | _ | ev
  · simp [step, handle, onExpandAllClick, run, perform]
  · simp [step, handle, onCollapseAllClick, run, perform, hl]
  · cases ev <;>
      simp [step, handle, fire, hh2, treeHandlers, LoadOp.effect, run, perform]

/-- C9, amended, on the page with the tree. -/
theorem expandAll_indicator_witness :
    (step treePage UiEvent.expandAllClick).loadShown = true ∧
    (step (step treePage UiEvent.expandAllClick)
      (UiEvent.tree TreeEvent.open_all)).loadShown = false ∧
    (step (step treePage UiEvent.expandAllClick)
      (UiEvent.tree TreeEvent.loading)).loadShown ≠ false :=
  have h := expandAll_indicator treePage rfl
  ⟨h.2.1, (h.2.2.2.1 _).2 (Or.inr rfl), fun hf => by
    have := (h.2.2.2.1 _).1 hf
    simp at this⟩

end Unfold
